import Mathlib

set_option maxRecDepth 8000
set_option maxHeartbeats 1000000

/-!
Verification development for the iota.go client library.

The development shallowly embeds three parts of the repository:

* the binary serialization engine, illustrated by the `TreasuryOutput`
  object codec (spec sections 3, 4.4, 7, 8);
* the node event (broker) client `node_event_api_client.go`: the
  inactive-client registration gate, the topic constants, and the
  per-payload subscription callbacks;
* the Curl-P-81 sponge engines, scalar and batched (spec sections 6 and 9),
  whose Go implementation is exercised by the ginkgo test in the sources.

Bytes are modelled as `Nat` values below 256, trits as `Int` values, machine
integers as `Nat` with explicit `% 2^w` where overflow matters, fallible
operations as `Except`.
-/

/-! ## Deserialization modes and the error taxonomy (spec sections 3 and 7) -/

/-- The two deserialization modes of the codec (spec section 3:
`DeserializationMode` is an enumerated value, a per-call parameter). -/
inductive DeSeriMode where
  | noValidation
  | performValidation
  deriving DecidableEq

/-- The codec error taxonomy of spec section 7 (kinds, not concrete names). -/
inductive SerdeError where
  | truncatedInput
  | unknownDiscriminator
  | arityViolation
  | semanticViolation
  deriving DecidableEq

/-! ## Primitive codec: fixed-width little-endian integers (spec section 4.1) -/

/-- Little-endian encoding of a natural number into `n` bytes
(spec section 4.1: all multi-byte integers use little-endian byte order). -/
def natToBytesLE : Nat → Nat → List Nat
  | 0, _ => []
  | n + 1, v => v % 256 :: natToBytesLE n (v / 256)

/-- Little-endian decoding of a byte list into a natural number. -/
def bytesToNatLE : List Nat → Nat
  | [] => 0
  | b :: rest => b + 256 * bytesToNatLE rest

/-! ## TreasuryOutput object codec -/

/-- Modelled from the spec: the network's total token supply bound used by the
amount validation predicate (spec section 3, TreasuryOutput invariant:
"Amount must be nonzero and not exceed the network's total token supply").
The repository code defining the constant is not under the analyzed sources;
the concrete value stands in for the protocol constant and fits in 8 bytes. -/
def TokenSupply : Nat := 2779530283277761

/-- Modelled from the spec: the protocol type discriminator for
TreasuryOutput (spec section 3: canonical bytes =
[TypeDiscriminator][Amount, fixed-width, fixed endianness]). The codec code
is not under the analyzed sources; the spec fixes only that the
discriminator is a small unsigned integer of protocol-fixed width, here one
byte. -/
def TreasuryOutputType : Nat := 2

/-- The TreasuryOutput ledger object (spec section 3):
fields = {Amount: unsigned 64-bit}. -/
structure TreasuryOutput where
  Amount : Nat
  deriving DecidableEq

/-- Modelled from the spec: `TreasuryOutput.Serialize` (spec section 4.4).
Serialize under `PerformValidation` first runs the validation layer on the
in-memory object and fails before producing any bytes if a check fails; the
canonical bytes are the discriminator byte followed by the amount as an
8-byte little-endian integer. -/
def TreasuryOutput.Serialize (t : TreasuryOutput) (mode : DeSeriMode) :
    Except SerdeError (List Nat) :=
  if mode = DeSeriMode.performValidation ∧ (t.Amount = 0 ∨ TokenSupply < t.Amount) then
    Except.error SerdeError.semanticViolation
  else
    Except.ok (TreasuryOutputType :: natToBytesLE 8 t.Amount)

/-- Modelled from the spec: `TreasuryOutput.Deserialize` (spec sections 4.4
and 7), returning the pair (bytesConsumed, result) as the Go signature
`Deserialize(data, mode) (int, error)` does. The structural pass reads the
discriminator byte and the 8 amount bytes; the semantic amount check runs
only under `PerformValidation`, and a semantic violation is reported
alongside the structural byte count already consumed. -/
def TreasuryOutput.Deserialize (data : List Nat) (mode : DeSeriMode) :
    Nat × Except SerdeError TreasuryOutput :=
  match data with
  | [] => (0, Except.error SerdeError.truncatedInput)
  | d :: rest =>
    if d ≠ TreasuryOutputType then
      (0, Except.error SerdeError.unknownDiscriminator)
    else if rest.length < 8 then
      (0, Except.error SerdeError.truncatedInput)
    else
      let amount := bytesToNatLE (rest.take 8)
      if mode = DeSeriMode.performValidation ∧ (amount = 0 ∨ TokenSupply < amount) then
        (9, Except.error SerdeError.semanticViolation)
      else
        (9, Except.ok ⟨amount⟩)

/-! ## Node event API client: topics and the registration gate
(`node_event_api_client.go`) -/

/-- Topic of the latest milestone event channel. -/
def NodeEventMilestonesLatest : String := "milestones/latest"

/-- Topic of the confirmed milestone event channel. -/
def NodeEventMilestonesConfirmed : String := "milestones/confirmed"

/-- Topic of the received messages event channel. -/
def NodeEventMessages : String := "messages"

/-- Topic of the referenced messages metadata event channel. -/
def NodeEventMessagesReferenced : String := "messages/referenced"

/-- Topic template of the indexed messages event channel. -/
def NodeEventMessagesIndexation : String := "messages/indexation/{index}"

/-- Topic template of the message metadata event channel. -/
def NodeEventMessagesMetadata : String := "messages/{messageId}/metadata"

/-- Topic template of the included transaction message event channel. -/
def NodeEventTransactionsIncludedMessage : String :=
  "transactions/{transactionId}/included-message"

/-- Topic template of the outputs event channel. -/
def NodeEventOutputs : String := "outputs/{outputId}"

/-- Topic of the receipts event channel. -/
def NodeEventReceipts : String := "receipts"

/-- Topic template of the address outputs event channel. -/
def NodeEventAddressesOutput : String := "addresses/{address}/outputs"

/-- Topic template of the ed25519 address outputs event channel. -/
def NodeEventAddressesEd25519Output : String := "addresses/ed25519/{address}/outputs"

/-- The placeholder substituted by `MessagesWithIndex`. -/
def IndexPlaceholder : String := "{index}"

/-- The placeholder substituted by `MessageMetadataChange`. -/
def MessageIdPlaceholder : String := "{messageId}"

/-- The placeholder substituted by `TransactionIncludedMessage`. -/
def TransactionIdPlaceholder : String := "{transactionId}"

/-- The placeholder substituted by `Output`. -/
def OutputIdPlaceholder : String := "{outputId}"

/-- The placeholder substituted by the address output channels. -/
def AddressPlaceholder : String := "{address}"

/-- The observable activation state of a `NodeEventAPIClient`:
`ctxDone` models `neac.Ctx.Err() != nil` and `connected` models
`neac.MQTTClient.IsConnected()`. -/
structure NodeEventAPIClient where
  ctxDone : Bool
  connected : Bool
  deriving DecidableEq

/-- The two conditions under which the registration gate fires, matching the
two formatted messages wrapped around `ErrNodeEventAPIClientInactive`. -/
inductive InactiveDetail where
  | ctxDone
  | notConnected
  deriving DecidableEq

/-- The base error `ErrNodeEventAPIClientInactive`. -/
inductive NodeEventBaseError where
  | nodeEventAPIClientInactive
  deriving DecidableEq

/-- A panic raised by a registration method: an error wrapping a base error
(as `fmt.Errorf` with the `w` verb wraps `ErrNodeEventAPIClientInactive`). -/
structure RegistrationPanic where
  base : NodeEventBaseError
  detail : InactiveDetail
  deriving DecidableEq

/-- Embedding of `panicIfNodeEventAPIClientInactive`: panics (modelled as
`Except.error`) when the client context is done, then when the MQTT client
is not connected; otherwise the registration proceeds. -/
def panicIfNodeEventAPIClientInactive (neac : NodeEventAPIClient) :
    Except RegistrationPanic Unit :=
  if neac.ctxDone then
    Except.error ⟨NodeEventBaseError.nodeEventAPIClientInactive, InactiveDetail.ctxDone⟩
  else if neac.connected = false then
    Except.error ⟨NodeEventBaseError.nodeEventAPIClientInactive, InactiveDetail.notConnected⟩
  else
    Except.ok ()

/-- Embedding of `NodeEventAPIClient.Messages`: gate, then subscribe to the
messages topic; the produced value is the topic subscribed to. -/
def NodeEventAPIClient.Messages (neac : NodeEventAPIClient) :
    Except RegistrationPanic String :=
  match panicIfNodeEventAPIClientInactive neac with
  | Except.error e => Except.error e
  | Except.ok _ => Except.ok NodeEventMessages

/-- Embedding of `NodeEventAPIClient.ReferencedMessagesMetadata`. -/
def NodeEventAPIClient.ReferencedMessagesMetadata (neac : NodeEventAPIClient) :
    Except RegistrationPanic String :=
  match panicIfNodeEventAPIClientInactive neac with
  | Except.error e => Except.error e
  | Except.ok _ => Except.ok NodeEventMessagesReferenced

/-- Embedding of `NodeEventAPIClient.ReferencedMessages`. -/
def NodeEventAPIClient.ReferencedMessages (neac : NodeEventAPIClient) :
    Except RegistrationPanic String :=
  match panicIfNodeEventAPIClientInactive neac with
  | Except.error e => Except.error e
  | Except.ok _ => Except.ok NodeEventMessagesReferenced

/-- Embedding of `NodeEventAPIClient.MessagesWithIndex`: the topic template
has its index placeholder substituted before subscribing. -/
def NodeEventAPIClient.MessagesWithIndex (neac : NodeEventAPIClient)
    (index : String) : Except RegistrationPanic String :=
  match panicIfNodeEventAPIClientInactive neac with
  | Except.error e => Except.error e
  | Except.ok _ => Except.ok (NodeEventMessagesIndexation.replace IndexPlaceholder index)

/-- Embedding of `NodeEventAPIClient.MessageMetadataChange`; the message id
parameter stands for the hex-formatted message id. -/
def NodeEventAPIClient.MessageMetadataChange (neac : NodeEventAPIClient)
    (msgID : String) : Except RegistrationPanic String :=
  match panicIfNodeEventAPIClientInactive neac with
  | Except.error e => Except.error e
  | Except.ok _ => Except.ok (NodeEventMessagesMetadata.replace MessageIdPlaceholder msgID)

/-- Embedding of `NodeEventAPIClient.AddressOutputs`; the address parameter
stands for the Bech32-formatted address. -/
def NodeEventAPIClient.AddressOutputs (neac : NodeEventAPIClient)
    (addr : String) : Except RegistrationPanic String :=
  match panicIfNodeEventAPIClientInactive neac with
  | Except.error e => Except.error e
  | Except.ok _ => Except.ok (NodeEventAddressesOutput.replace AddressPlaceholder addr)

/-- Embedding of `NodeEventAPIClient.Ed25519AddressOutputs`. -/
def NodeEventAPIClient.Ed25519AddressOutputs (neac : NodeEventAPIClient)
    (addr : String) : Except RegistrationPanic String :=
  match panicIfNodeEventAPIClientInactive neac with
  | Except.error e => Except.error e
  | Except.ok _ => Except.ok (NodeEventAddressesEd25519Output.replace AddressPlaceholder addr)

/-- Embedding of `NodeEventAPIClient.TransactionIncludedMessage`. -/
def NodeEventAPIClient.TransactionIncludedMessage (neac : NodeEventAPIClient)
    (txID : String) : Except RegistrationPanic String :=
  match panicIfNodeEventAPIClientInactive neac with
  | Except.error e => Except.error e
  | Except.ok _ =>
    Except.ok (NodeEventTransactionsIncludedMessage.replace TransactionIdPlaceholder txID)

/-- Embedding of `NodeEventAPIClient.Output`; the output id parameter stands
for the hex-formatted output id. -/
def NodeEventAPIClient.Output (neac : NodeEventAPIClient)
    (outputID : String) : Except RegistrationPanic String :=
  match panicIfNodeEventAPIClientInactive neac with
  | Except.error e => Except.error e
  | Except.ok _ => Except.ok (NodeEventOutputs.replace OutputIdPlaceholder outputID)

/-- Embedding of `NodeEventAPIClient.Receipts`. -/
def NodeEventAPIClient.Receipts (neac : NodeEventAPIClient) :
    Except RegistrationPanic String :=
  match panicIfNodeEventAPIClientInactive neac with
  | Except.error e => Except.error e
  | Except.ok _ => Except.ok NodeEventReceipts

/-- Embedding of `NodeEventAPIClient.LatestMilestones`. -/
def NodeEventAPIClient.LatestMilestones (neac : NodeEventAPIClient) :
    Except RegistrationPanic String :=
  match panicIfNodeEventAPIClientInactive neac with
  | Except.error e => Except.error e
  | Except.ok _ => Except.ok NodeEventMilestonesLatest

/-- Embedding of `NodeEventAPIClient.LatestMilestoneMessages`. -/
def NodeEventAPIClient.LatestMilestoneMessages (neac : NodeEventAPIClient) :
    Except RegistrationPanic String :=
  match panicIfNodeEventAPIClientInactive neac with
  | Except.error e => Except.error e
  | Except.ok _ => Except.ok NodeEventMilestonesLatest

/-- Embedding of `NodeEventAPIClient.ConfirmedMilestones`. -/
def NodeEventAPIClient.ConfirmedMilestones (neac : NodeEventAPIClient) :
    Except RegistrationPanic String :=
  match panicIfNodeEventAPIClientInactive neac with
  | Except.error e => Except.error e
  | Except.ok _ => Except.ok NodeEventMilestonesConfirmed

/-- Embedding of `NodeEventAPIClient.ConfirmedMilestoneMessages`. -/
def NodeEventAPIClient.ConfirmedMilestoneMessages (neac : NodeEventAPIClient) :
    Except RegistrationPanic String :=
  match panicIfNodeEventAPIClientInactive neac with
  | Except.error e => Except.error e
  | Except.ok _ => Except.ok NodeEventMilestonesConfirmed

/-! ## Node event API client: subscription callbacks -/

/-- What one invocation of a subscription callback does with one payload:
either the decoded object is delivered on the registration channel, or the
decode error is handed to `sendErrOrDrop` on the client error channel and
the payload is skipped. -/
inductive HandlerEvent (E M : Type) where
  | delivered (m : M)
  | errorReported (e : E)
  deriving DecidableEq

/-- The common shape of every subscription callback in
`node_event_api_client.go`: decode the payload received verbatim from the
network; on error, report it on the error channel and return; otherwise
deliver the decoded object. -/
def onReceive {E M : Type} (decode : List Nat → Except E M)
    (payload : List Nat) : HandlerEvent E M :=
  match decode payload with
  | Except.error e => HandlerEvent.errorReported e
  | Except.ok m => HandlerEvent.delivered m

/-- Embedding of the subscription callback registered by `Messages`
(lines 119-130): it calls `msg.Deserialize(payload, DeSeriModePerformValidation)`
on the raw payload; the deserializer is passed in as a capability, as the
`Message` codec lives outside the analyzed sources. -/
def messagesOnReceive {M : Type}
    (deserializeMessage : List Nat → DeSeriMode → Nat × Except SerdeError M)
    (payload : List Nat) : HandlerEvent SerdeError M :=
  onReceive (fun p => (deserializeMessage p DeSeriMode.performValidation).2) payload

/-- Embedding of the subscription callback registered by `MessagesWithIndex`
(lines 207-218); its body is identical to the `Messages` callback. -/
def messagesWithIndexOnReceive {M : Type}
    (deserializeMessage : List Nat → DeSeriMode → Nat × Except SerdeError M)
    (payload : List Nat) : HandlerEvent SerdeError M :=
  onReceive (fun p => (deserializeMessage p DeSeriMode.performValidation).2) payload

/-- Embedding of the subscription callback registered by
`TransactionIncludedMessage` (lines 319-330); its body is identical to the
`Messages` callback. -/
def transactionIncludedMessageOnReceive {M : Type}
    (deserializeMessage : List Nat → DeSeriMode → Nat × Except SerdeError M)
    (payload : List Nat) : HandlerEvent SerdeError M :=
  onReceive (fun p => (deserializeMessage p DeSeriMode.performValidation).2) payload

/-- The sequence of events a subscription produces on a sequence of received
payloads: the MQTT client invokes the callback once per payload, and the
subscription persists after each invocation. -/
def subscriptionStream {E M : Type} (handler : List Nat → HandlerEvent E M) :
    List (List Nat) → List (HandlerEvent E M)
  | [] => []
  | p :: ps => handler p :: subscriptionStream handler ps

/-- The objects actually delivered on the registration channel. -/
def deliveredMessages {E M : Type} : List (HandlerEvent E M) → List M
  | [] => []
  | HandlerEvent.delivered m :: rest => m :: deliveredMessages rest
  | HandlerEvent.errorReported _ :: rest => deliveredMessages rest

/-! ## Curl-P-81 sponge engines (spec sections 6 and 9)

Modelled from the spec: the hash engine capability of spec section 6
(`absorb`, `squeeze`, `reset`, `clone`, plus the batched variant) and the
explicit {Absorbing, Squeezed} state machine of spec section 9. The Go
implementation packages `curl` and `curl/bct` are not under the analyzed
sources (only the ginkgo test exercising them is), and the spec declares
the internal mixing function out of scope, so the engines below are
parameterized by an arbitrary length-preserving state transform `f`. -/

/-- The sponge state machine of spec section 9: {Absorbing, Squeezed}. -/
inductive SpongeDirection where
  | absorbing
  | squeezing
  deriving DecidableEq

/-- Trits per hash: one absorb/squeeze chunk. -/
def HashTrinarySize : Nat := 243

/-- Trits in a Curl sponge state. -/
def StateSize : Nat := 729

/-- The fixed maximum number of slices a batched engine accepts. -/
def MaxBatchSize : Nat := 64

/-- Ordinary input errors of the hash engines. -/
inductive CurlError where
  | invalidBatchSize
  | invalidTritsLength
  deriving DecidableEq

/-- A failure signal of a hash engine operation: either an ordinary,
recoverable input error, or a contract violation, the model of a Go panic
(spec section 7, caller-misuse). -/
inductive CurlSignal where
  | inputError (e : CurlError)
  | contractViolation
  deriving DecidableEq

/-- Modelled from the spec: the non-batched Curl-P-81 engine state. -/
structure Curl where
  state : List Int
  direction : SpongeDirection
  deriving DecidableEq

/-- A fresh non-batched engine: zero state, absorbing. -/
def newCurlP81 : Curl :=
  ⟨List.replicate StateSize 0, SpongeDirection.absorbing⟩

/-- One absorb chunk of the scalar engine: the chunk overwrites the first
`HashTrinarySize` trits of the state, then the transform runs. -/
def curlAbsorbChunk (f : List Int → List Int) (c : Curl) (chunk : List Int) : Curl :=
  ⟨f (chunk ++ c.state.drop HashTrinarySize), c.direction⟩

/-- Absorbing `k` successive chunks of the input into the scalar engine. -/
def curlAbsorbChunksN (f : List Int → List Int) : Nat → Curl → List Int → Curl
  | 0, c, _ => c
  | k + 1, c, input =>
    curlAbsorbChunksN f k (curlAbsorbChunk f c (input.take HashTrinarySize))
      (input.drop HashTrinarySize)

/-- Modelled from the spec: `Curl.Absorb`. Absorbing is invalid once the
engine has squeezed (contract violation); the input length must be a
nonzero multiple of the hash size. -/
def Curl.Absorb (f : List Int → List Int) (c : Curl) (input : List Int) :
    Except CurlSignal Curl :=
  if c.direction ≠ SpongeDirection.absorbing then
    Except.error CurlSignal.contractViolation
  else if input.length = 0 ∨ input.length % HashTrinarySize ≠ 0 then
    Except.error (CurlSignal.inputError CurlError.invalidTritsLength)
  else
    Except.ok (curlAbsorbChunksN f (input.length / HashTrinarySize) c input)

/-- One squeeze chunk of the scalar engine: transform first when the engine
is already squeezing, then emit the first `HashTrinarySize` trits. -/
def curlSqueezeChunk (f : List Int → List Int) (c : Curl) : List Int × Curl :=
  let s := if c.direction = SpongeDirection.squeezing then f c.state else c.state
  (s.take HashTrinarySize, ⟨s, SpongeDirection.squeezing⟩)

/-- Squeezing `k` successive chunks out of the scalar engine. -/
def curlSqueezeN (f : List Int → List Int) : Nat → Curl → List Int × Curl
  | 0, c => ([], c)
  | k + 1, c =>
    let hc := curlSqueezeChunk f c
    let rest := curlSqueezeN f k hc.2
    (hc.1 ++ rest.1, rest.2)

/-- Modelled from the spec: `Curl.Squeeze`; the output length must be a
nonzero multiple of the hash size. -/
def Curl.Squeeze (f : List Int → List Int) (c : Curl) (numTrits : Nat) :
    Except CurlSignal (List Int × Curl) :=
  if numTrits = 0 ∨ numTrits % HashTrinarySize ≠ 0 then
    Except.error (CurlSignal.inputError CurlError.invalidTritsLength)
  else
    Except.ok (curlSqueezeN f (numTrits / HashTrinarySize) c)

/-- Row `j` of a column-major batched state: the scalar state of slot `j`. -/
def row (j : Nat) (cols : List (List Int)) : List Int :=
  cols.map (fun colv => colv.getD j 0)

/-- Transposition of a uniform list of `w`-wide rows into `w` columns. -/
def transposeW (w : Nat) (rows : List (List Int)) : List (List Int) :=
  (List.range w).map (fun i => rows.map (fun r => r.getD i 0))

/-- Modelled from the spec: the batched Curl-P-81 engine. Its state is kept
column-major, one entry per trit position holding that position's trit for
each of the `MaxBatchSize` slots, the trit-level counterpart of the
binary-coded-ternary bit planes of the batched implementation. -/
structure BCTCurl where
  state : List (List Int)
  direction : SpongeDirection
  deriving DecidableEq

/-- A fresh batched engine: zero state in every slot, absorbing. -/
def newBCTCurlP81 : BCTCurl :=
  ⟨List.replicate StateSize (List.replicate MaxBatchSize 0), SpongeDirection.absorbing⟩

/-- Column `i` of one batch of chunks: the trit at position `i` of every
slot's chunk; slots beyond the batch hold the zero trit. -/
def sliceColumn (chs : List (List Int)) (i : Nat) : List Int :=
  (List.range MaxBatchSize).map (fun j => (chs.getD j []).getD i 0)

/-- Writing one batch of chunks into the batched state: the first
`HashTrinarySize` columns are overwritten with the chunk columns. -/
def bctIn (chs : List (List Int)) (c : BCTCurl) : BCTCurl :=
  ⟨(List.range HashTrinarySize).map (sliceColumn chs) ++ c.state.drop HashTrinarySize,
   c.direction⟩

/-- The batched state transform: all `MaxBatchSize` slots run the scalar
transform together, expressed on the column-major state by transposing to
rows, transforming each row, and transposing back. -/
def bctTransform (f : List Int → List Int) (cols : List (List Int)) : List (List Int) :=
  transposeW StateSize ((List.range MaxBatchSize).map (fun j => f (row j cols)))

/-- One absorb step of the batched engine: write the chunk batch, then
transform. -/
def bctAbsorbChunk (f : List Int → List Int) (c : BCTCurl) (chs : List (List Int)) :
    BCTCurl :=
  let c2 := bctIn chs c
  ⟨bctTransform f c2.state, c2.direction⟩

/-- Absorbing `k` successive chunk batches into the batched engine. -/
def bctAbsorbChunksN (f : List Int → List Int) :
    Nat → BCTCurl → List (List Int) → BCTCurl
  | 0, c, _ => c
  | k + 1, c, chs =>
    bctAbsorbChunksN f k
      (bctAbsorbChunk f c (chs.map (fun s => s.take HashTrinarySize)))
      (chs.map (fun s => s.drop HashTrinarySize))

/-- Modelled from the spec: `BCTCurl.Absorb` takes up to `MaxBatchSize`
equal-length slices and the per-slice trit count. Absorbing after a squeeze
is a contract violation (the Go panic); bad batch sizes and trit counts are
ordinary input errors. -/
def BCTCurl.Absorb (f : List Int → List Int) (c : BCTCurl)
    (src : List (List Int)) (numTrits : Nat) : Except CurlSignal BCTCurl :=
  if c.direction ≠ SpongeDirection.absorbing then
    Except.error CurlSignal.contractViolation
  else if src.length = 0 ∨ MaxBatchSize < src.length then
    Except.error (CurlSignal.inputError CurlError.invalidBatchSize)
  else if numTrits = 0 ∨ numTrits % HashTrinarySize ≠ 0 then
    Except.error (CurlSignal.inputError CurlError.invalidTritsLength)
  else
    Except.ok (bctAbsorbChunksN f (numTrits / HashTrinarySize) c src)

/-- One squeeze step of the batched engine: transform first when already
squeezing, and enter the squeezing state. -/
def bctSqueezeChunk (f : List Int → List Int) (c : BCTCurl) : BCTCurl :=
  let s := if c.direction = SpongeDirection.squeezing then bctTransform f c.state
           else c.state
  ⟨s, SpongeDirection.squeezing⟩

/-- Squeezing `k` successive chunks out of every slot of the batched engine;
the first component collects the output trits of each of the `MaxBatchSize`
slots. -/
def bctSqueezeN (f : List Int → List Int) : Nat → BCTCurl → List (List Int) × BCTCurl
  | 0, c => (List.replicate MaxBatchSize [], c)
  | k + 1, c =>
    let c2 := bctSqueezeChunk f c
    let chunkRows :=
      (List.range MaxBatchSize).map (fun j => (row j c2.state).take HashTrinarySize)
    let rest := bctSqueezeN f k c2
    (List.zipWith (fun a b => a ++ b) chunkRows rest.1, rest.2)

/-- Modelled from the spec: `BCTCurl.Squeeze` fills `batchSize` output
slices of `numTrits` trits each. -/
def BCTCurl.Squeeze (f : List Int → List Int) (c : BCTCurl)
    (batchSize numTrits : Nat) : Except CurlSignal (List (List Int) × BCTCurl) :=
  if batchSize = 0 ∨ MaxBatchSize < batchSize then
    Except.error (CurlSignal.inputError CurlError.invalidBatchSize)
  else if numTrits = 0 ∨ numTrits % HashTrinarySize ≠ 0 then
    Except.error (CurlSignal.inputError CurlError.invalidTritsLength)
  else
    let res := bctSqueezeN f (numTrits / HashTrinarySize) c
    Except.ok (res.1.take batchSize, res.2)

/-- Modelled from the spec: `BCTCurl.Reset` zeroes the state and returns the
engine to the absorbing direction. -/
def BCTCurl.Reset (c : BCTCurl) : BCTCurl :=
  { c with
    state := List.replicate StateSize (List.replicate MaxBatchSize 0),
    direction := SpongeDirection.absorbing }

/-- Modelled from the spec: `BCTCurl.Clone` copies the accumulated state and
direction into an independent engine value. -/
def BCTCurl.Clone (c : BCTCurl) : BCTCurl :=
  ⟨c.state, c.direction⟩

/-! ## Helper lemmas on the primitive codec -/

theorem length_natToBytesLE (n : Nat) : ∀ v : Nat, (natToBytesLE n v).length = n := by
  induction n with
  | zero => intro v; simp [natToBytesLE]
  | succ k ih => intro v; simp [natToBytesLE, ih]

theorem bytesToNatLE_natToBytesLE (n : Nat) :
    ∀ v : Nat, bytesToNatLE (natToBytesLE n v) = v % 256 ^ n := by
  induction n with
  | zero => intro v; simp [natToBytesLE, bytesToNatLE, Nat.mod_one]
  | succ k ih =>
    intro v
    have hpow : (256 : Nat) ^ (k + 1) = 256 * 256 ^ k := by ring
    rw [natToBytesLE, bytesToNatLE, ih (v / 256), hpow, Nat.mod_mul]

theorem take_natToBytesLE (v : Nat) : (natToBytesLE 8 v).take 8 = natToBytesLE 8 v :=
  List.take_of_length_le (by rw [length_natToBytesLE])

/-! ## Claims about the TreasuryOutput codec -/

/-- Claim C1: every TreasuryOutput that passes `PerformValidation` on
Serialize round-trips: deserializing the serialized bytes under
`PerformValidation` reproduces the value in all observable fields, and the
reported bytesConsumed equals the length of the serialized bytes. -/
theorem treasuryOutput_roundtrip (t : TreasuryOutput) (bs : List Nat)
    (h : t.Serialize DeSeriMode.performValidation = Except.ok bs) :
    TreasuryOutput.Deserialize bs DeSeriMode.performValidation
      = (bs.length, Except.ok t) := by
  obtain ⟨A⟩ := t
  unfold TreasuryOutput.Serialize at h
  by_cases hv : A = 0 ∨ TokenSupply < A
  · rw [if_pos ⟨rfl, hv⟩] at h
    exact absurd h (by simp)
  · rw [if_neg (fun hc => hv hc.2)] at h
    obtain rfl : TreasuryOutputType :: natToBytesLE 8 A = bs := Except.ok.inj h
    have hA : A < 256 ^ 8 := by
      push_neg at hv
      exact lt_of_le_of_lt hv.2 (by decide)
    have hmod : A % 256 ^ 8 = A := Nat.mod_eq_of_lt hA
    simp only [TreasuryOutput.Deserialize, take_natToBytesLE, bytesToNatLE_natToBytesLE,
      hmod, length_natToBytesLE, List.length_cons]
    rw [if_neg (by simp), if_neg (by omega), if_neg (by simp [hv])]

/-- Witness for claim C1 at the concrete TreasuryOutput with Amount 1. -/
theorem treasuryOutput_roundtrip_witness :
    TreasuryOutput.Deserialize (TreasuryOutputType :: natToBytesLE 8 1)
      DeSeriMode.performValidation
      = ((TreasuryOutputType :: natToBytesLE 8 1).length, Except.ok ⟨1⟩) :=
  treasuryOutput_roundtrip ⟨1⟩ (TreasuryOutputType :: natToBytesLE 8 1) rfl

/-- Claim C2: a TreasuryOutput with Amount = 1000 serializes to exactly the
discriminator byte followed by 1000 as an 8-byte little-endian integer, and
deserializing that byte sequence under `PerformValidation` yields Amount =
1000 with bytesConsumed equal to the discriminator width plus 8. -/
theorem treasuryOutput_amount1000_encoding :
    TreasuryOutput.Serialize ⟨1000⟩ DeSeriMode.performValidation
        = Except.ok (TreasuryOutputType :: natToBytesLE 8 1000)
      ∧ natToBytesLE 8 1000 = [232, 3, 0, 0, 0, 0, 0, 0]
      ∧ TreasuryOutput.Deserialize (TreasuryOutputType :: natToBytesLE 8 1000)
          DeSeriMode.performValidation
        = (1 + 8, Except.ok ⟨1000⟩) := by
  refine ⟨rfl, by decide, rfl⟩

/-- Claim C3: a byte sequence that is structurally well-formed but
semantically invalid (for example an encoding with Amount = 0) deserializes
successfully under `NoValidation`, fails with a semantic-violation error
under `PerformValidation`, and both modes consume the same number of bytes
on the structural pass. -/
theorem treasuryOutput_mode_independence (rest : List Nat)
    (hbytes : ∀ b ∈ rest, b < 256) (hlen : 8 ≤ rest.length)
    (hsem : bytesToNatLE (rest.take 8) = 0 ∨ TokenSupply < bytesToNatLE (rest.take 8)) :
    TreasuryOutput.Deserialize (TreasuryOutputType :: rest) DeSeriMode.noValidation
        = (9, Except.ok ⟨bytesToNatLE (rest.take 8)⟩)
      ∧ TreasuryOutput.Deserialize (TreasuryOutputType :: rest) DeSeriMode.performValidation
        = (9, Except.error SerdeError.semanticViolation) := by
  constructor
  · simp only [TreasuryOutput.Deserialize]
    rw [if_neg (by simp), if_neg (by omega), if_neg (by simp)]
  · simp only [TreasuryOutput.Deserialize]
    rw [if_neg (by simp), if_neg (by omega), if_pos ⟨trivial, hsem⟩]

/-- Witness for claim C3 at the all-zero amount encoding. -/
theorem treasuryOutput_mode_independence_witness :
    TreasuryOutput.Deserialize (TreasuryOutputType :: List.replicate 8 0)
        DeSeriMode.noValidation
        = (9, Except.ok ⟨bytesToNatLE ((List.replicate 8 0).take 8)⟩)
      ∧ TreasuryOutput.Deserialize (TreasuryOutputType :: List.replicate 8 0)
          DeSeriMode.performValidation
        = (9, Except.error SerdeError.semanticViolation) :=
  treasuryOutput_mode_independence (List.replicate 8 0) (by decide) (by decide)
    (Or.inl (by decide))

/-! ## Helper lemmas on subscription streams -/

theorem subscriptionStream_append {E M : Type} (handler : List Nat → HandlerEvent E M)
    (xs ys : List (List Nat)) :
    subscriptionStream handler (xs ++ ys)
      = subscriptionStream handler xs ++ subscriptionStream handler ys := by
  induction xs with
  | nil => rfl
  | cons p ps ih => simp [subscriptionStream, ih]

theorem deliveredMessages_append {E M : Type} (evs fvs : List (HandlerEvent E M)) :
    deliveredMessages (evs ++ fvs) = deliveredMessages evs ++ deliveredMessages fvs := by
  induction evs with
  | nil => rfl
  | cons ev rest ih => cases ev <;> simp [deliveredMessages, ih]

/-! ## Claims about the node event API client -/

/-- Claim C4: every `Deserialize` call the broker client makes on a payload
received from the network is made in strict `PerformValidation` mode: the
three binary-payload subscription callbacks (`Messages`,
`MessagesWithIndex`, `TransactionIncludedMessage`) are insensitive to any
change of the deserializer's behavior outside `PerformValidation` mode, so
none of them ever consults `NoValidation` deserialization. -/
theorem nodeEvent_strict_mode_only {M : Type}
    (d1 d2 : List Nat → DeSeriMode → Nat × Except SerdeError M)
    (hstrict : ∀ p, d1 p DeSeriMode.performValidation = d2 p DeSeriMode.performValidation)
    (p : List Nat) :
    messagesOnReceive d1 p = messagesOnReceive d2 p
      ∧ messagesWithIndexOnReceive d1 p = messagesWithIndexOnReceive d2 p
      ∧ transactionIncludedMessageOnReceive d1 p = transactionIncludedMessageOnReceive d2 p := by
  refine ⟨?_, ?_, ?_⟩ <;>
    simp only [messagesOnReceive, messagesWithIndexOnReceive,
      transactionIncludedMessageOnReceive, onReceive, hstrict p]

/-- Witness for claim C4 at a constant deserializer and the empty payload. -/
theorem nodeEvent_strict_mode_only_witness :
    messagesOnReceive (M := Unit) (fun _ _ => (0, Except.error SerdeError.truncatedInput)) []
        = messagesOnReceive (fun _ _ => (0, Except.error SerdeError.truncatedInput)) []
      ∧ messagesWithIndexOnReceive (M := Unit)
          (fun _ _ => (0, Except.error SerdeError.truncatedInput)) []
        = messagesWithIndexOnReceive (fun _ _ => (0, Except.error SerdeError.truncatedInput)) []
      ∧ transactionIncludedMessageOnReceive (M := Unit)
          (fun _ _ => (0, Except.error SerdeError.truncatedInput)) []
        = transactionIncludedMessageOnReceive
            (fun _ _ => (0, Except.error SerdeError.truncatedInput)) [] :=
  nodeEvent_strict_mode_only (fun _ _ => (0, Except.error SerdeError.truncatedInput))
    (fun _ _ => (0, Except.error SerdeError.truncatedInput)) (fun _ => rfl) []

/-- Claim C5: a payload that fails to deserialize does not terminate a
subscription: the callback reports the codec error (via `sendErrOrDrop` on
the client error channel) and skips the payload, and every other payload of
the stream, before or after the malformed one, is processed exactly as it
would be on its own; the malformed payload contributes no delivered object. -/
theorem nodeEvent_malformed_payload_skipped {E M : Type}
    (decode : List Nat → Except E M) (xs ys : List (List Nat))
    (bad : List Nat) (e : E) (h : decode bad = Except.error e) :
    subscriptionStream (onReceive decode) (xs ++ bad :: ys)
        = subscriptionStream (onReceive decode) xs
          ++ HandlerEvent.errorReported e :: subscriptionStream (onReceive decode) ys
      ∧ deliveredMessages (subscriptionStream (onReceive decode) (xs ++ bad :: ys))
        = deliveredMessages (subscriptionStream (onReceive decode) xs)
          ++ deliveredMessages (subscriptionStream (onReceive decode) ys) := by
  have hbad : onReceive decode bad = HandlerEvent.errorReported e := by
    simp [onReceive, h]
  have hsplit : subscriptionStream (onReceive decode) (xs ++ bad :: ys)
      = subscriptionStream (onReceive decode) xs
        ++ HandlerEvent.errorReported e :: subscriptionStream (onReceive decode) ys := by
    rw [subscriptionStream_append]
    simp [subscriptionStream, hbad]
  refine ⟨hsplit, ?_⟩
  rw [hsplit, deliveredMessages_append]
  simp [deliveredMessages]

/-- Witness for claim C5 at a constantly failing decoder. -/
theorem nodeEvent_malformed_payload_skipped_witness :
    subscriptionStream (onReceive (M := Unit) (fun _ => Except.error SerdeError.semanticViolation))
        ([] ++ [] :: [])
        = subscriptionStream (onReceive (M := Unit) (fun _ => Except.error SerdeError.semanticViolation)) []
          ++ HandlerEvent.errorReported SerdeError.semanticViolation
            :: subscriptionStream (onReceive (M := Unit) (fun _ => Except.error SerdeError.semanticViolation)) []
      ∧ deliveredMessages
          (subscriptionStream (onReceive (M := Unit) (fun _ => Except.error SerdeError.semanticViolation))
            ([] ++ [] :: []))
        = deliveredMessages
            (subscriptionStream (onReceive (M := Unit) (fun _ => Except.error SerdeError.semanticViolation)) [])
          ++ deliveredMessages
              (subscriptionStream (onReceive (M := Unit) (fun _ => Except.error SerdeError.semanticViolation)) []) :=
  nodeEvent_malformed_payload_skipped (fun _ => Except.error SerdeError.semanticViolation)
    [] [] [] SerdeError.semanticViolation rfl

/-- Claim C10: whenever the client context is done or the MQTT client is not
connected, every channel-registration method of the NodeEventAPIClient
panics with an error wrapping `ErrNodeEventAPIClientInactive` before
performing any subscription (the registration result is the panic, never a
subscribed topic). -/
theorem nodeEvent_registration_panics_when_inactive (neac : NodeEventAPIClient)
    (index msgID addr txID outputID : String)
    (h : neac.ctxDone = true ∨ neac.connected = false) :
    ∃ detail : InactiveDetail,
      neac.Messages = Except.error ⟨NodeEventBaseError.nodeEventAPIClientInactive, detail⟩
      ∧ neac.ReferencedMessagesMetadata
          = Except.error ⟨NodeEventBaseError.nodeEventAPIClientInactive, detail⟩
      ∧ neac.ReferencedMessages
          = Except.error ⟨NodeEventBaseError.nodeEventAPIClientInactive, detail⟩
      ∧ neac.MessagesWithIndex index
          = Except.error ⟨NodeEventBaseError.nodeEventAPIClientInactive, detail⟩
      ∧ neac.MessageMetadataChange msgID
          = Except.error ⟨NodeEventBaseError.nodeEventAPIClientInactive, detail⟩
      ∧ neac.AddressOutputs addr
          = Except.error ⟨NodeEventBaseError.nodeEventAPIClientInactive, detail⟩
      ∧ neac.Ed25519AddressOutputs addr
          = Except.error ⟨NodeEventBaseError.nodeEventAPIClientInactive, detail⟩
      ∧ neac.TransactionIncludedMessage txID
          = Except.error ⟨NodeEventBaseError.nodeEventAPIClientInactive, detail⟩
      ∧ neac.Output outputID
          = Except.error ⟨NodeEventBaseError.nodeEventAPIClientInactive, detail⟩
      ∧ neac.Receipts = Except.error ⟨NodeEventBaseError.nodeEventAPIClientInactive, detail⟩
      ∧ neac.LatestMilestones
          = Except.error ⟨NodeEventBaseError.nodeEventAPIClientInactive, detail⟩
      ∧ neac.LatestMilestoneMessages
          = Except.error ⟨NodeEventBaseError.nodeEventAPIClientInactive, detail⟩
      ∧ neac.ConfirmedMilestones
          = Except.error ⟨NodeEventBaseError.nodeEventAPIClientInactive, detail⟩
      ∧ neac.ConfirmedMilestoneMessages
          = Except.error ⟨NodeEventBaseError.nodeEventAPIClientInactive, detail⟩ := by
  refine ⟨if neac.ctxDone then InactiveDetail.ctxDone else InactiveDetail.notConnected, ?_⟩
  have hgate : panicIfNodeEventAPIClientInactive neac
      = Except.error ⟨NodeEventBaseError.nodeEventAPIClientInactive,
          if neac.ctxDone then InactiveDetail.ctxDone else InactiveDetail.notConnected⟩ := by
    unfold panicIfNodeEventAPIClientInactive
    by_cases hc : neac.ctxDone = true
    · rw [if_pos hc, if_pos hc]
    · have hnc : neac.connected = false := h.resolve_left hc
      rw [if_neg hc, if_pos hnc, if_neg hc]
  refine ⟨?_, ?_, ?_, ?_, ?_, ?_, ?_, ?_, ?_, ?_, ?_, ?_, ?_, ?_⟩ <;>
    simp only [NodeEventAPIClient.Messages, NodeEventAPIClient.ReferencedMessagesMetadata,
      NodeEventAPIClient.ReferencedMessages, NodeEventAPIClient.MessagesWithIndex,
      NodeEventAPIClient.MessageMetadataChange, NodeEventAPIClient.AddressOutputs,
      NodeEventAPIClient.Ed25519AddressOutputs,
      NodeEventAPIClient.TransactionIncludedMessage, NodeEventAPIClient.Output,
      NodeEventAPIClient.Receipts, NodeEventAPIClient.LatestMilestones,
      NodeEventAPIClient.LatestMilestoneMessages, NodeEventAPIClient.ConfirmedMilestones,
      NodeEventAPIClient.ConfirmedMilestoneMessages, hgate]

/-- Witness for claim C10 at a client whose context is done. -/
theorem nodeEvent_registration_panics_when_inactive_witness :
    ∃ detail : InactiveDetail,
      NodeEventAPIClient.Messages ⟨true, true⟩
          = Except.error ⟨NodeEventBaseError.nodeEventAPIClientInactive, detail⟩
      ∧ NodeEventAPIClient.ReferencedMessagesMetadata ⟨true, true⟩
          = Except.error ⟨NodeEventBaseError.nodeEventAPIClientInactive, detail⟩
      ∧ NodeEventAPIClient.ReferencedMessages ⟨true, true⟩
          = Except.error ⟨NodeEventBaseError.nodeEventAPIClientInactive, detail⟩
      ∧ NodeEventAPIClient.MessagesWithIndex ⟨true, true⟩ NodeEventMessages
          = Except.error ⟨NodeEventBaseError.nodeEventAPIClientInactive, detail⟩
      ∧ NodeEventAPIClient.MessageMetadataChange ⟨true, true⟩ NodeEventMessages
          = Except.error ⟨NodeEventBaseError.nodeEventAPIClientInactive, detail⟩
      ∧ NodeEventAPIClient.AddressOutputs ⟨true, true⟩ NodeEventMessages
          = Except.error ⟨NodeEventBaseError.nodeEventAPIClientInactive, detail⟩
      ∧ NodeEventAPIClient.Ed25519AddressOutputs ⟨true, true⟩ NodeEventMessages
          = Except.error ⟨NodeEventBaseError.nodeEventAPIClientInactive, detail⟩
      ∧ NodeEventAPIClient.TransactionIncludedMessage ⟨true, true⟩ NodeEventMessages
          = Except.error ⟨NodeEventBaseError.nodeEventAPIClientInactive, detail⟩
      ∧ NodeEventAPIClient.Output ⟨true, true⟩ NodeEventMessages
          = Except.error ⟨NodeEventBaseError.nodeEventAPIClientInactive, detail⟩
      ∧ NodeEventAPIClient.Receipts ⟨true, true⟩
          = Except.error ⟨NodeEventBaseError.nodeEventAPIClientInactive, detail⟩
      ∧ NodeEventAPIClient.LatestMilestones ⟨true, true⟩
          = Except.error ⟨NodeEventBaseError.nodeEventAPIClientInactive, detail⟩
      ∧ NodeEventAPIClient.LatestMilestoneMessages ⟨true, true⟩
          = Except.error ⟨NodeEventBaseError.nodeEventAPIClientInactive, detail⟩
      ∧ NodeEventAPIClient.ConfirmedMilestones ⟨true, true⟩
          = Except.error ⟨NodeEventBaseError.nodeEventAPIClientInactive, detail⟩
      ∧ NodeEventAPIClient.ConfirmedMilestoneMessages ⟨true, true⟩
          = Except.error ⟨NodeEventBaseError.nodeEventAPIClientInactive, detail⟩ :=
  nodeEvent_registration_panics_when_inactive ⟨true, true⟩
    NodeEventMessages NodeEventMessages NodeEventMessages NodeEventMessages NodeEventMessages
    (Or.inl rfl)

/-! ## Helper lemmas on lists, rows and transposition -/

theorem getD_map_getD (l : List (List Int)) (i : Nat) :
    ∀ j : Nat, (l.map (fun r => r.getD i 0)).getD j 0 = (l.getD j []).getD i 0 := by
  induction l with
  | nil => intro j; simp [List.getD]
  | cons a t ih =>
    intro j
    cases j with
    | zero => simp
    | succ k => simpa using ih k

theorem getD_map_nilpres (f : List Int → List Int) (hf0 : f [] = [])
    (l : List (List Int)) : ∀ j : Nat, (l.map f).getD j [] = f (l.getD j []) := by
  induction l with
  | nil => intro j; simp [List.getD, hf0]
  | cons a t ih =>
    intro j
    cases j with
    | zero => simp
    | succ k => simpa using ih k

theorem getD_range_map {α : Type} (n : Nat) (g : Nat → α) (d : α) (j : Nat)
    (h : j < n) : ((List.range n).map g).getD j d = g j := by
  rw [List.getD_eq_getElem _ _ (by simpa using h)]
  simp

theorem range_map_getD (l : List Int) (n : Nat) (h : l.length = n) :
    (List.range n).map (fun i => l.getD i 0) = l := by
  subst h
  apply List.ext_getElem
  · simp
  · intro i h1 h2
    simp only [List.getElem_map, List.getElem_range]
    exact List.getD_eq_getElem l 0 h2

theorem getD_take_lt {α : Type} (l : List α) (d : α) :
    ∀ (n j : Nat), j < n → (l.take n).getD j d = l.getD j d := by
  induction l with
  | nil => intro n j _; simp
  | cons a t ih =>
    intro n j hj
    cases n with
    | zero => omega
    | succ m =>
      cases j with
      | zero => simp
      | succ k => simpa using ih m k (by omega)

theorem getD_zipWith_append (A : List (List Int)) :
    ∀ (B : List (List Int)) (j : Nat), j < A.length → j < B.length →
    (List.zipWith (fun a b => a ++ b) A B).getD j [] = A.getD j [] ++ B.getD j [] := by
  induction A with
  | nil => intro B j hA _; simp at hA
  | cons a t ih =>
    intro B j hA hB
    cases B with
    | nil => simp at hB
    | cons b u =>
      cases j with
      | zero => simp
      | succ k => simpa using ih u k (by simpa using hA) (by simpa using hB)

theorem getD_replicate {α : Type} (n : Nat) (a : α) :
    ∀ j : Nat, (List.replicate n a).getD j a = a := by
  induction n with
  | zero => intro j; simp
  | succ m ih =>
    intro j
    cases j with
    | zero => simp
    | succ k => simpa [List.replicate_succ] using ih k

theorem row_length (j : Nat) (cols : List (List Int)) :
    (row j cols).length = cols.length := by
  simp [row]

theorem row_append (j : Nat) (A B : List (List Int)) :
    row j (A ++ B) = row j A ++ row j B := by
  simp [row]

theorem row_drop (j n : Nat) (cols : List (List Int)) :
    row j (cols.drop n) = (row j cols).drop n := by
  simp [row, List.map_drop]

theorem row_transposeW (rows : List (List Int)) (w j : Nat)
    (hrow : (rows.getD j []).length = w) :
    row j (transposeW w rows) = rows.getD j [] := by
  unfold row transposeW
  rw [List.map_map]
  have he : ((fun colv : List Int => colv.getD j 0) ∘ fun i => rows.map (fun r => r.getD i 0))
      = fun i => (rows.getD j []).getD i 0 := by
    funext i
    simp only [Function.comp_apply]
    exact getD_map_getD rows i j
  rw [he, range_map_getD _ _ hrow]

theorem length_transposeW (w : Nat) (rows : List (List Int)) :
    (transposeW w rows).length = w := by
  simp [transposeW]

theorem length_bctTransform (f : List Int → List Int) (cols : List (List Int)) :
    (bctTransform f cols).length = StateSize := by
  simp [bctTransform, length_transposeW]

theorem row_bctTransform (f : List Int → List Int)
    (hf : ∀ l : List Int, l.length = StateSize → (f l).length = StateSize)
    (cols : List (List Int)) (hc : cols.length = StateSize) (j : Nat)
    (hj : j < MaxBatchSize) :
    row j (bctTransform f cols) = f (row j cols) := by
  unfold bctTransform
  have hR : ((List.range MaxBatchSize).map (fun i => f (row i cols))).getD j []
      = f (row j cols) := getD_range_map MaxBatchSize _ [] j hj
  rw [row_transposeW _ _ _ (by rw [hR]; exact hf _ (by rw [row_length, hc]))]
  exact hR

theorem length_bctIn (chs : List (List Int)) (c : BCTCurl)
    (h : c.state.length = StateSize) : (bctIn chs c).state.length = StateSize := by
  show ((List.range HashTrinarySize).map (sliceColumn chs)
    ++ c.state.drop HashTrinarySize).length = StateSize
  simp [h, HashTrinarySize, StateSize]

theorem row_bctIn (chs : List (List Int)) (c : BCTCurl) (j : Nat)
    (hj : j < MaxBatchSize) :
    row j (bctIn chs c).state
      = (List.range HashTrinarySize).map (fun i => (chs.getD j []).getD i 0)
        ++ (row j c.state).drop HashTrinarySize := by
  have hstate : (bctIn chs c).state
      = (List.range HashTrinarySize).map (sliceColumn chs)
        ++ c.state.drop HashTrinarySize := rfl
  rw [hstate, row_append, row_drop]
  congr 1
  unfold row
  rw [List.map_map]
  have he : ((fun colv : List Int => colv.getD j 0) ∘ sliceColumn chs)
      = fun i => (chs.getD j []).getD i 0 := by
    funext i
    simp only [Function.comp_apply, sliceColumn]
    exact getD_range_map MaxBatchSize _ 0 j hj
  rw [he]

theorem row_newBCT (j : Nat) : row j newBCTCurlP81.state = newCurlP81.state := by
  show row j (List.replicate StateSize (List.replicate MaxBatchSize 0))
    = List.replicate StateSize 0
  unfold row
  rw [List.map_replicate]
  congr 1
  exact getD_replicate MaxBatchSize 0 j

theorem bct_absorb_slot (f : List Int → List Int)
    (hf : ∀ l : List Int, l.length = StateSize → (f l).length = StateSize) :
    ∀ (k : Nat) (c : BCTCurl) (chs : List (List Int)) (sc : Curl) (j : Nat),
    j < MaxBatchSize → c.state.length = StateSize → row j c.state = sc.state →
    HashTrinarySize * k ≤ (chs.getD j []).length →
    (bctAbsorbChunksN f k c chs).state.length = StateSize
    ∧ (bctAbsorbChunksN f k c chs).direction = c.direction
    ∧ row j (bctAbsorbChunksN f k c chs).state
        = (curlAbsorbChunksN f k sc (chs.getD j [])).state
    ∧ (curlAbsorbChunksN f k sc (chs.getD j [])).direction = sc.direction := by
  intro k
  induction k with
  | zero =>
    intro c chs sc j hj hlen hrow _
    exact ⟨hlen, rfl, hrow, rfl⟩
  | succ m ih =>
    intro c chs sc j hj hlen hrow hbudget
    have hmulsucc : HashTrinarySize * (m + 1) = HashTrinarySize * m + HashTrinarySize :=
      Nat.mul_succ _ _
    have hlenj : HashTrinarySize ≤ (chs.getD j []).length :=
      le_trans (Nat.le_add_left _ _) (hmulsucc ▸ hbudget)
    have htakelen : ((chs.getD j []).take HashTrinarySize).length = HashTrinarySize := by
      rw [List.length_take]
      exact Nat.min_eq_left hlenj
    have hgetT : (chs.map (fun s => s.take HashTrinarySize)).getD j []
        = (chs.getD j []).take HashTrinarySize :=
      getD_map_nilpres _ List.take_nil chs j
    have hgetD : (chs.map (fun s => s.drop HashTrinarySize)).getD j []
        = (chs.getD j []).drop HashTrinarySize :=
      getD_map_nilpres _ List.drop_nil chs j
    have hc2len : (bctAbsorbChunk f c (chs.map (fun s => s.take HashTrinarySize))).state.length
        = StateSize := length_bctTransform f _
    have hrow2 : row j (bctAbsorbChunk f c (chs.map (fun s => s.take HashTrinarySize))).state
        = (curlAbsorbChunk f sc ((chs.getD j []).take HashTrinarySize)).state := by
      show row j (bctTransform f
        (bctIn (chs.map (fun s => s.take HashTrinarySize)) c).state) = _
      rw [row_bctTransform f hf _ (length_bctIn _ c hlen) j hj,
        row_bctIn _ c j hj, hgetT, range_map_getD _ _ htakelen, hrow]
      rfl
    have hbudget2 : HashTrinarySize * m
        ≤ ((chs.map (fun s => s.drop HashTrinarySize)).getD j []).length := by
      rw [hgetD, List.length_drop]
      exact Nat.le_sub_of_add_le (hmulsucc ▸ hbudget)
    have hrec := ih _ _ _ j hj hc2len hrow2 hbudget2
    rw [hgetD] at hrec
    obtain ⟨r1, r2, r3, r4⟩ := hrec
    refine ⟨?_, ?_, ?_, ?_⟩
    · simpa only [bctAbsorbChunksN] using r1
    · simp only [bctAbsorbChunksN]
      exact r2.trans rfl
    · simp only [bctAbsorbChunksN, curlAbsorbChunksN]
      exact r3
    · simp only [curlAbsorbChunksN]
      exact r4.trans rfl

theorem length_bctSqueezeN (f : List Int → List Int) :
    ∀ (k : Nat) (c : BCTCurl), (bctSqueezeN f k c).1.length = MaxBatchSize := by
  intro k
  induction k with
  | zero => intro c; simp [bctSqueezeN]
  | succ m ih =>
    intro c
    simp [bctSqueezeN, ih]

theorem bct_squeeze_slot (f : List Int → List Int)
    (hf : ∀ l : List Int, l.length = StateSize → (f l).length = StateSize) :
    ∀ (k : Nat) (c : BCTCurl) (sc : Curl) (j : Nat),
    j < MaxBatchSize → c.state.length = StateSize → row j c.state = sc.state →
    c.direction = sc.direction →
    (bctSqueezeN f k c).1.getD j [] = (curlSqueezeN f k sc).1 := by
  intro k
  induction k with
  | zero =>
    intro c sc j hj _ _ _
    show (List.replicate MaxBatchSize ([] : List Int)).getD j [] = []
    exact getD_replicate MaxBatchSize [] j
  | succ m ih =>
    intro c sc j hj hlen hrow hdir
    have hs2row : row j (bctSqueezeChunk f c).state
        = (if sc.direction = SpongeDirection.squeezing then f sc.state else sc.state) := by
      show row j (if c.direction = SpongeDirection.squeezing then bctTransform f c.state
        else c.state) = _
      rw [hdir]
      by_cases hd : sc.direction = SpongeDirection.squeezing
      · rw [if_pos hd, if_pos hd, row_bctTransform f hf _ hlen j hj, hrow]
      · rw [if_neg hd, if_neg hd, hrow]
    have hs2len : (bctSqueezeChunk f c).state.length = StateSize := by
      show (if c.direction = SpongeDirection.squeezing then bctTransform f c.state
        else c.state).length = StateSize
      by_cases hd : c.direction = SpongeDirection.squeezing
      · rw [if_pos hd]; exact length_bctTransform f _
      · rw [if_neg hd]; exact hlen
    have hrest := ih (bctSqueezeChunk f c)
      ⟨if sc.direction = SpongeDirection.squeezing then f sc.state else sc.state,
        SpongeDirection.squeezing⟩ j hj hs2len hs2row rfl
    show (List.zipWith (fun a b => a ++ b)
        ((List.range MaxBatchSize).map
          (fun i => (row i (bctSqueezeChunk f c).state).take HashTrinarySize))
        (bctSqueezeN f m (bctSqueezeChunk f c)).1).getD j []
      = (curlSqueezeN f (m + 1) sc).1
    rw [getD_zipWith_append _ _ j (by simpa using hj) (by rw [length_bctSqueezeN]; exact hj),
      getD_range_map _ _ _ j hj, hs2row, hrest]
    rfl

/-! ## Claims about the Curl-P-81 engines -/

/-- Claim C6: for every batch of up to `MaxBatchSize` equal-length trit
slices, absorbing the batch into the batched Curl-P-81 engine and squeezing
produces, for each slot `j`, exactly the hash obtained by absorbing slice
`j` into the non-batched Curl-P-81 engine and squeezing the same output
length. Stated for every length-preserving state transform `f`, which in
particular covers the Curl-P-81 mixing function the spec leaves out of
scope. -/
theorem bct_curl_matches_unbatched (f : List Int → List Int)
    (hf : ∀ l : List Int, l.length = StateSize → (f l).length = StateSize)
    (src : List (List Int)) (numTrits outTrits j : Nat)
    (hj : j < src.length) (hb : src.length ≤ MaxBatchSize)
    (hlen : ∀ s ∈ src, s.length = numTrits)
    (hpos : numTrits ≠ 0) (hmul : numTrits % HashTrinarySize = 0)
    (hopos : outTrits ≠ 0) (homul : outTrits % HashTrinarySize = 0) :
    ∃ (bc bcf : BCTCurl) (out : List (List Int)) (sc scf : Curl) (sout : List Int),
      BCTCurl.Absorb f newBCTCurlP81 src numTrits = Except.ok bc
      ∧ BCTCurl.Squeeze f bc src.length outTrits = Except.ok (out, bcf)
      ∧ Curl.Absorb f newCurlP81 (src.getD j []) = Except.ok sc
      ∧ Curl.Squeeze f sc outTrits = Except.ok (sout, scf)
      ∧ out.getD j [] = sout := by
  have hjb : j < MaxBatchSize := lt_of_lt_of_le hj hb
  have hslot : (src.getD j []).length = numTrits := by
    rw [List.getD_eq_getElem src [] hj]
    exact hlen _ (List.getElem_mem hj)
  have hbudget : HashTrinarySize * (numTrits / HashTrinarySize)
      ≤ (src.getD j []).length := by
    rw [hslot, Nat.mul_comm]
    exact Nat.div_mul_le_self numTrits HashTrinarySize
  obtain ⟨hblen, hbdir, hbrow, hsdir⟩ := bct_absorb_slot f hf (numTrits / HashTrinarySize)
    newBCTCurlP81 src newCurlP81 j hjb (by simp [newBCTCurlP81]) (row_newBCT j) hbudget
  refine ⟨bctAbsorbChunksN f (numTrits / HashTrinarySize) newBCTCurlP81 src,
    (bctSqueezeN f (outTrits / HashTrinarySize)
      (bctAbsorbChunksN f (numTrits / HashTrinarySize) newBCTCurlP81 src)).2,
    (bctSqueezeN f (outTrits / HashTrinarySize)
      (bctAbsorbChunksN f (numTrits / HashTrinarySize) newBCTCurlP81 src)).1.take src.length,
    curlAbsorbChunksN f (numTrits / HashTrinarySize) newCurlP81 (src.getD j []),
    (curlSqueezeN f (outTrits / HashTrinarySize)
      (curlAbsorbChunksN f (numTrits / HashTrinarySize) newCurlP81 (src.getD j []))).2,
    (curlSqueezeN f (outTrits / HashTrinarySize)
      (curlAbsorbChunksN f (numTrits / HashTrinarySize) newCurlP81 (src.getD j []))).1,
    ?_, ?_, ?_, ?_, ?_⟩
  · unfold BCTCurl.Absorb
    rw [if_neg (by simp [newBCTCurlP81]),
      if_neg (not_or.mpr ⟨by omega, not_lt.2 hb⟩),
      if_neg (not_or.mpr ⟨hpos, not_ne_iff.mpr hmul⟩)]
  · unfold BCTCurl.Squeeze
    rw [if_neg (not_or.mpr ⟨by omega, not_lt.2 hb⟩),
      if_neg (not_or.mpr ⟨hopos, not_ne_iff.mpr homul⟩)]
  · unfold Curl.Absorb
    rw [hslot, if_neg (by simp [newCurlP81]),
      if_neg (not_or.mpr ⟨hpos, not_ne_iff.mpr hmul⟩)]
  · unfold Curl.Squeeze
    rw [if_neg (not_or.mpr ⟨hopos, not_ne_iff.mpr homul⟩)]
  · rw [getD_take_lt _ _ src.length j hj]
    exact bct_squeeze_slot f hf (outTrits / HashTrinarySize) _ _ j hjb hblen hbrow
      (by rw [hbdir, hsdir]; rfl)

/-- Witness for claim C6 at a one-slice batch of one all-zero hash-size
chunk, the identity transform, and one squeeze chunk. -/
theorem bct_curl_matches_unbatched_witness :
    ∃ (bc bcf : BCTCurl) (out : List (List Int)) (sc scf : Curl) (sout : List Int),
      BCTCurl.Absorb (fun l => l) newBCTCurlP81 [List.replicate HashTrinarySize 0]
          HashTrinarySize = Except.ok bc
      ∧ BCTCurl.Squeeze (fun l => l) bc [List.replicate HashTrinarySize 0].length
          HashTrinarySize = Except.ok (out, bcf)
      ∧ Curl.Absorb (fun l => l) newCurlP81
          ([List.replicate HashTrinarySize 0].getD 0 []) = Except.ok sc
      ∧ Curl.Squeeze (fun l => l) sc HashTrinarySize = Except.ok (sout, scf)
      ∧ out.getD 0 [] = sout :=
  bct_curl_matches_unbatched (fun l => l) (fun _ h => h)
    [List.replicate HashTrinarySize 0] HashTrinarySize HashTrinarySize 0
    (by simp) (by decide)
    (by intro s hs; rw [List.mem_singleton] at hs; rw [hs, List.length_replicate])
    (by decide) (by decide) (by decide) (by decide)

theorem bctSqueezeN_direction (f : List Int → List Int) :
    ∀ (k : Nat) (c : BCTCurl), k ≠ 0 →
    (bctSqueezeN f k c).2.direction = SpongeDirection.squeezing := by
  intro k
  induction k with
  | zero => intro c h; exact absurd rfl h
  | succ m ih =>
    intro c _
    show (bctSqueezeN f m (bctSqueezeChunk f c)).2.direction = SpongeDirection.squeezing
    cases m with
    | zero => rfl
    | succ p => exact ih (bctSqueezeChunk f c) (Nat.succ_ne_zero p)

/-- Claim C7: calling Absorb on a batched Curl-P-81 engine after Squeeze has
been called is a programming error, not a recoverable input error: the call
yields the contract-violation signal — the model of the Go panic — and
never an ordinary input error or a successful result, whatever trits are
passed. -/
theorem bct_absorb_after_squeeze_contract_violation (f : List Int → List Int)
    (c bcf : BCTCurl) (outs : List (List Int)) (batchSize numTrits : Nat)
    (h : BCTCurl.Squeeze f c batchSize numTrits = Except.ok (outs, bcf))
    (src : List (List Int)) (n : Nat) :
    BCTCurl.Absorb f bcf src n = Except.error CurlSignal.contractViolation := by
  unfold BCTCurl.Squeeze at h
  by_cases h1 : batchSize = 0 ∨ MaxBatchSize < batchSize
  · rw [if_pos h1] at h
    exact absurd h (by simp)
  · rw [if_neg h1] at h
    by_cases h2 : numTrits = 0 ∨ numTrits % HashTrinarySize ≠ 0
    · rw [if_pos h2] at h
      exact absurd h (by simp)
    · rw [if_neg h2] at h
      push_neg at h2
      have hbcf : bcf = (bctSqueezeN f (numTrits / HashTrinarySize) c).2 :=
        (congrArg Prod.snd (Except.ok.inj h)).symm
      have hk : numTrits / HashTrinarySize ≠ 0 := by
        intro h0
        have hlt : numTrits < HashTrinarySize := (Nat.div_eq_zero_iff (by decide)).1 h0
        exact h2.1 ((Nat.mod_eq_of_lt hlt).symm.trans h2.2)
      have hdir := bctSqueezeN_direction f (numTrits / HashTrinarySize) c hk
      unfold BCTCurl.Absorb
      rw [if_pos (by rw [hbcf, hdir]; simp)]

/-- Witness for claim C7: squeezing one hash out of an engine with an empty
column state, then absorbing, yields the contract violation. -/
theorem bct_absorb_after_squeeze_contract_violation_witness :
    BCTCurl.Absorb (fun l => l) ⟨[], SpongeDirection.squeezing⟩ [] 0
      = Except.error CurlSignal.contractViolation :=
  bct_absorb_after_squeeze_contract_violation (fun l => l)
    ⟨[], SpongeDirection.absorbing⟩ ⟨[], SpongeDirection.squeezing⟩
    [[]] 1 HashTrinarySize rfl [] 0

/-- Claim C8: Clone on a batched Curl-P-81 engine returns an independent
copy with the same accumulated state and direction: applied to any engine
`c1` (in particular one that has already absorbed some input), the clone
carries the same state, and absorbing the same further input into the
original and into the clone and then squeezing yields identical results; in
this value semantics operations on either engine value cannot affect the
other. -/
theorem bct_clone_independent_same_state (f : List Int → List Int) (c1 : BCTCurl)
    (b : List (List Int)) (nb w n : Nat) :
    (BCTCurl.Clone c1).state = c1.state
      ∧ (BCTCurl.Clone c1).direction = c1.direction
      ∧ (BCTCurl.Absorb f (BCTCurl.Clone c1) b nb).bind
          (fun c2 => BCTCurl.Squeeze f c2 w n)
        = (BCTCurl.Absorb f c1 b nb).bind (fun c2 => BCTCurl.Squeeze f c2 w n)
      ∧ BCTCurl.Clone c1 = c1 :=
  ⟨rfl, rfl, rfl, rfl⟩

/-- Claim C9: Reset restores a batched Curl-P-81 engine to its initial
state: whatever the engine `c` has absorbed or squeezed before, the reset
engine equals a freshly constructed engine, so absorbing any input into it
and squeezing produces exactly the fresh engine's hash. -/
theorem bct_reset_restores_initial_state (f : List Int → List Int) (c : BCTCurl)
    (x : List (List Int)) (nx w n : Nat) :
    BCTCurl.Reset c = newBCTCurlP81
      ∧ (BCTCurl.Absorb f (BCTCurl.Reset c) x nx).bind
          (fun c2 => BCTCurl.Squeeze f c2 w n)
        = (BCTCurl.Absorb f newBCTCurlP81 x nx).bind
            (fun c2 => BCTCurl.Squeeze f c2 w n)
      ∧ (BCTCurl.Reset c).direction = SpongeDirection.absorbing := by
  cases c
  exact ⟨rfl, rfl, rfl⟩
